import Mathlib

/-!
Shallow embedding of the foodgram backend's core logic (the parts the
verified claims are about), translated from the Django source:

* data model: `recipes/models.py` (Ingredient, Recipe, IngredientsInRecipe,
  ShoppingCart, FavoriteRecipe) and `users/models.py` (Subscription);
* shopping-cart aggregation: `api/views.py` `download_shopping_cart`;
* favorite/cart toggles: `api/views.py` `_add_to_relation` /
  `_remove_from_relation` and `api/serializers.py` `ShoppingCartSerializer`;
* subscription creation: `api/serializers.py`
  `SubscriptionCreateSerializer.validate`;
* recipe create/update: `api/serializers.py` `CreateRecipeSerializer`
  (`validate`, `create`, `update`) and the transaction-wrapped duplicate
  `foodgram/api/views.py` `RecipeViewSet.create`.

Database tables are lists of rows; integer columns are `Nat`.  The
production database is PostgreSQL (`settings.py`), where
`PositiveSmallIntegerField` is a `smallint`, so a row insert fails when the
value exceeds 32767; `bulk_create` is a single INSERT statement, so it
persists all of its rows or none of them.
-/

/-- `recipes/models.py` `Ingredient`: name and measurement unit, with
`unique_together = [name, measurement_unit]` at the table level. -/
structure Ingredient where
  id : Nat
  name : String
  measurement_unit : String
  deriving DecidableEq

/-- `recipes/models.py` `Recipe` (the columns the claims touch; `image`,
`code` and `created` play no part in any claim). -/
structure Recipe where
  id : Nat
  author : Nat
  name : String
  text : String
  cooking_time : Nat
  deriving DecidableEq

/-- `recipes/models.py` `IngredientsInRecipe`: one ingredient line of a
recipe, with `unique_together = [recipe, ingredient]`. -/
structure IngredientsInRecipe where
  recipe : Nat
  ingredient : Nat
  amount : Nat
  deriving DecidableEq

/-- The relational store: one list of rows per table.  `favorites` and
`shopping_cart` hold the `(user, recipe)` join rows of `FavoriteRecipe`
and `ShoppingCart`; `subscriptions` holds `(subscriber, author)` rows;
`recipe_tags` holds the `(recipe, tag)` many-to-many rows. -/
structure Store where
  ingredients : List Ingredient
  recipes : List Recipe
  recipe_tags : List (Nat × Nat)
  lines : List IngredientsInRecipe
  favorites : List (Nat × Nat)
  shopping_cart : List (Nat × Nat)
  subscriptions : List (Nat × Nat)
  deriving DecidableEq

/-! ### Shopping-cart aggregation (`api/views.py` `download_shopping_cart`) -/

/-- `Recipe.objects.filter(recipes_shoppingcart_by_recipe__user=user)`:
ids of the recipes having a cart row for `u`. -/
def cartRecipeIds (s : Store) (u : Nat) : List Nat :=
  (s.recipes.filter
    (fun r => s.shopping_cart.any (fun p => decide (p.1 = u ∧ p.2 = r.id)))).map (·.id)

/-- `IngredientsInRecipe.objects.filter(recipe__in=shopping_cart_recipes)`. -/
def cartLines (s : Store) (u : Nat) : List IngredientsInRecipe :=
  s.lines.filter (fun l => (cartRecipeIds s u).any (fun r => decide (r = l.recipe)))

/-- The `(ingredient__name, ingredient__measurement_unit)` values joined to a
line (`none` only for a dangling foreign key, which the database forbids). -/
def lineKey (s : Store) (l : IngredientsInRecipe) : Option (String × String) :=
  (s.ingredients.find? (fun i => decide (i.id = l.ingredient))).map
    (fun i => (i.name, i.measurement_unit))

/-- The joined `(key, amount)` rows the query aggregates over. -/
def keyedRows (s : Store) (u : Nat) : List ((String × String) × Nat) :=
  (cartLines s u).filterMap (fun l => (lineKey s l).map (fun k => (k, l.amount)))

/-- One step of SQL `GROUP BY key` with `SUM(amount)`: fold a `(key, amount)`
row into the accumulated groups. -/
def addToGroups :
    List ((String × String) × Nat) → (String × String) → Nat →
      List ((String × String) × Nat)
  | [], k, a => [(k, a)]
  | (k0, t0) :: rest, k, a =>
    if k0 = k then (k0, t0 + a) :: rest
    else (k0, t0) :: addToGroups rest k a

/-- `GROUP BY (name, unit)` with `SUM(amount)` over a row list. -/
def groupPairs (ps : List ((String × String) × Nat)) :
    List ((String × String) × Nat) :=
  ps.foldl (fun acc p => addToGroups acc p.1 p.2) []

/-- `api/views.py` `download_shopping_cart`: the `values(...).annotate(
total_amount=Sum('amount'))` queryset, one `((name, unit), total)` row per
group (the CSV wrapper around it is presentation only). -/
def download_shopping_cart (s : Store) (u : Nat) :
    List ((String × String) × Nat) :=
  groupPairs (keyedRows s u)

/-- Sum of the amounts of the cart lines whose ingredient carries a given
`(name, measurement_unit)` pair. -/
def pairTotal (s : Store) (u : Nat) (k : String × String) : Nat :=
  (((cartLines s u).filter (fun l => decide (lineKey s l = some k))).map
    (·.amount)).sum

/-- Sum of the second components of the rows with a given key. -/
def sumFor : List ((String × String) × Nat) → (String × String) → Nat
  | [], _ => 0
  | (k0, t0) :: rest, k => (if k0 = k then t0 else 0) + sumFor rest k

/-! ### Favorite / cart membership (`api/views.py`) -/

/-- Outcome of a relation toggle, as surfaced to the HTTP layer
(201 created / 400 already exists / 204 removed / 400 not found). -/
inductive RelResult
  | created
  | alreadyExists
  | removed
  | notFound
  deriving DecidableEq

/-- `relation_model.objects.filter(user=user, recipe=recipe).exists()`. -/
def pairPresent (rel : List (Nat × Nat)) (u r : Nat) : Bool :=
  rel.any (fun p => decide (p.1 = u ∧ p.2 = r))

/-- Number of rows of the join table for one `(user, recipe)` pair (the
`unique_together` constraint keeps this at most 1). -/
def pairCount (rel : List (Nat × Nat)) (u r : Nat) : Nat :=
  (rel.filter (fun p => decide (p.1 = u ∧ p.2 = r))).length

/-- `api/views.py` `_add_to_relation` (also
`ShoppingCartSerializer.validate` + `save`): reject when the row exists,
otherwise insert it. -/
def add_to_relation (rel : List (Nat × Nat)) (u r : Nat) :
    List (Nat × Nat) × RelResult :=
  if pairPresent rel u r then (rel, .alreadyExists)
  else (rel ++ [(u, r)], .created)

/-- Delete the first row matching the pair
(`filter(...).first()` then `.delete()`). -/
def erasePair (rel : List (Nat × Nat)) (u r : Nat) : List (Nat × Nat) :=
  match rel with
  | [] => []
  | p :: rest => if p.1 = u ∧ p.2 = r then rest else p :: erasePair rest u r

/-- `api/views.py` `_remove_from_relation`: 400 when no row matches,
otherwise delete the matching row. -/
def remove_from_relation (rel : List (Nat × Nat)) (u r : Nat) :
    List (Nat × Nat) × RelResult :=
  if pairPresent rel u r then (erasePair rel u r, .removed)
  else (rel, .notFound)

/-- The Add; Remove; Add sequence on one relation table. -/
def addRemoveAdd (rel : List (Nat × Nat)) (u r : Nat) : List (Nat × Nat) :=
  (add_to_relation
    ((remove_from_relation ((add_to_relation rel u r).1) u r).1) u r).1

/-! ### Subscriptions (`api/serializers.py` `SubscriptionCreateSerializer`) -/

/-- Outcome of a subscription creation. -/
inductive SubResult
  | created
  | invalidOperation
  | alreadyExists
  deriving DecidableEq

/-- `SubscriptionCreateSerializer.validate` + `create`: the
self-subscription check comes first, then the existence check, then the
insert. -/
def subscription_add (s : Store) (subscriber author : Nat) :
    Store × SubResult :=
  if subscriber = author then (s, .invalidOperation)
  else if s.subscriptions.any (fun p => decide (p.1 = subscriber ∧ p.2 = author)) then
    (s, .alreadyExists)
  else
    ({ s with subscriptions := s.subscriptions ++ [(subscriber, author)] }, .created)

/-! ### Recipe create / update (`api/serializers.py` `CreateRecipeSerializer`,
`foodgram/api/views.py` `RecipeViewSet.create`) -/

/-- Outcome of a recipe mutation: created (with the new id), updated,
rejected by validation, or failed at the database layer. -/
inductive WriteResult
  | created (id : Nat)
  | ok
  | validationError
  | dbError
  deriving DecidableEq

/-- Payload of `POST /api/recipes/`: `ingredients` is a list of
`(ingredient id, amount)` pairs, `tags` a list of tag ids. -/
structure RecipeInput where
  author : Nat
  name : String
  text : String
  cooking_time : Nat
  tags : List Nat
  ingredients : List (Nat × Nat)
  deriving DecidableEq

/-- `PrimaryKeyRelatedField(queryset=Ingredient.objects.all())`. -/
def ingredientExists (s : Store) (iid : Nat) : Bool :=
  s.ingredients.any (fun i => decide (i.id = iid))

/-- Field-level validation: every ingredient id exists, every
`amount >= 1` (`IntegerField(min_value=1)` — no upper bound), and
`cooking_time` within the model validators 1..240. -/
def fieldValidation (s : Store) (ings : List (Nat × Nat)) (ct : Nat) : Bool :=
  decide (1 ≤ ct) && decide (ct ≤ 240) &&
    ings.all (fun p => ingredientExists s p.1 && decide (1 ≤ p.2))

/-- `CreateRecipeSerializer.validate`: ingredients and tags non-empty and
free of duplicates. -/
def validateRecipePayload (ings : List (Nat × Nat)) (tags : List Nat) : Bool :=
  decide (ings ≠ []) && decide ((ings.map (·.1)).Nodup) &&
    decide (tags ≠ []) && decide (tags.Nodup)

/-- PostgreSQL `smallint` upper bound of `PositiveSmallIntegerField`. -/
def SMALLINT_MAX : Nat := 32767

/-- Whether one line row is accepted by the database: amount within the
`smallint` range and no `(recipe, ingredient)` uniqueness violation. -/
def lineInsertOk (s : Store) (l : IngredientsInRecipe) : Bool :=
  decide (l.amount ≤ SMALLINT_MAX) &&
    !(s.lines.any (fun l2 => decide (l2.recipe = l.recipe ∧ l2.ingredient = l.ingredient)))

/-- `IngredientsInRecipe.objects.bulk_create([...])`: one INSERT statement,
so either every row is persisted or none is. -/
def bulk_create (s : Store) (ls : List IngredientsInRecipe) : Option Store :=
  if ls.all (fun l => lineInsertOk s l) &&
      decide ((ls.map (fun l => (l.recipe, l.ingredient))).Nodup) then
    some { s with lines := s.lines ++ ls }
  else none

/-- The autoincrement primary key for a fresh `Recipe` row. -/
def freshRecipeId (s : Store) : Nat :=
  (s.recipes.map (·.id)).foldl max 0 + 1

/-- The `IngredientsInRecipe` rows built from the validated payload. -/
def mkLines (rid : Nat) (ings : List (Nat × Nat)) : List IngredientsInRecipe :=
  ings.map (fun p => ⟨rid, p.1, p.2⟩)

/-- `recipe.tags.set(tags_data)`: replace the recipe's tag links. -/
def setTags (s : Store) (rid : Nat) (tags : List Nat) : Store :=
  { s with recipe_tags :=
      s.recipe_tags.filter (fun p => decide (p.1 ≠ rid)) ++ tags.map (fun t => (rid, t)) }

/-- `api/serializers.py` `CreateRecipeSerializer.create`, the code path the
router dispatches to (`foodgram/urls.py` includes `api.urls`): validation,
then `Recipe.objects.create`, `tags.set`, `bulk_create` — with NO
transaction wrapper, so a failing insert leaves the earlier writes in
place. -/
def createRecipe (s : Store) (inp : RecipeInput) : Store × WriteResult :=
  if fieldValidation s inp.ingredients inp.cooking_time &&
      validateRecipePayload inp.ingredients inp.tags then
    let rid := freshRecipeId s
    let s1 := { s with recipes :=
      s.recipes ++ [⟨rid, inp.author, inp.name, inp.text, inp.cooking_time⟩] }
    let s2 := setTags s1 rid inp.tags
    match bulk_create s2 (mkLines rid inp.ingredients) with
    | some s3 => (s3, .created rid)
    | none => (s2, .dbError)
  else (s, .validationError)

/-- `foodgram/api/views.py` `RecipeViewSet.create`: the same creation
sequence wrapped in `transaction.atomic()`, so any failure rolls every
write back. -/
def createRecipeTx (s : Store) (inp : RecipeInput) : Store × WriteResult :=
  if fieldValidation s inp.ingredients inp.cooking_time &&
      validateRecipePayload inp.ingredients inp.tags then
    let rid := freshRecipeId s
    let s1 := { s with recipes :=
      s.recipes ++ [⟨rid, inp.author, inp.name, inp.text, inp.cooking_time⟩] }
    let s2 := setTags s1 rid inp.tags
    match bulk_create s2 (mkLines rid inp.ingredients) with
    | some s3 => (s3, .created rid)
    | none => (s, .dbError)
  else (s, .validationError)

/-- Payload of `PATCH/PUT /api/recipes/<id>/`: a field is `none` when that
key is absent from the request body. -/
structure UpdateInput where
  name : Option String
  text : Option String
  cooking_time : Option Nat
  tags : Option (List Nat)
  ingredients : Option (List (Nat × Nat))
  deriving DecidableEq

/-- Validation of an update payload: `CreateRecipeSerializer.validate`
rejects outright when the `ingredients` or `tags` key is absent (also on a
partial update), then applies the same field and payload checks as
creation to the supplied values. -/
def validateUpdateInput (s : Store) (inp : UpdateInput) : Bool :=
  (match inp.cooking_time with
   | none => true
   | some ct => decide (1 ≤ ct) && decide (ct ≤ 240)) &&
  (match inp.ingredients with
   | none => false
   | some ings =>
     ings.all (fun p => ingredientExists s p.1 && decide (1 ≤ p.2)) &&
       decide (ings ≠ []) && decide ((ings.map (·.1)).Nodup)) &&
  (match inp.tags with
   | none => false
   | some tags => decide (tags ≠ []) && decide (tags.Nodup))

/-- `super().update(instance, validated_data)`: overwrite the scalar
columns that were supplied. -/
def updateScalars (r : Recipe) (inp : UpdateInput) : Recipe :=
  { r with
    name := inp.name.getD r.name
    text := inp.text.getD r.text
    cooking_time := inp.cooking_time.getD r.cooking_time }

/-- `api/serializers.py` `CreateRecipeSerializer.update`: validate, write
the scalar fields, `tags.set`, then delete every existing line of the
recipe (`instance.ingredients_in_recipe.all().delete()`) and bulk-insert
the new ones. -/
def updateRecipe (s : Store) (rid : Nat) (inp : UpdateInput) :
    Store × WriteResult :=
  if validateUpdateInput s inp then
    let rs := s.recipes.map (fun r => if r.id = rid then updateScalars r inp else r)
    let s1 := { s with recipes := rs }
    let s2 := match inp.tags with
      | none => s1
      | some ts => setTags s1 rid ts
    match inp.ingredients with
    | none => (s2, .ok)
    | some ings =>
      let s3 := { s2 with lines := s2.lines.filter (fun l => decide (l.recipe ≠ rid)) }
      match bulk_create s3 (mkLines rid ings) with
      | some s4 => (s4, .ok)
      | none => (s3, .dbError)
  else (s, .validationError)

/-- Example catalog/store used by the concrete witnesses below. -/
def exampleStore : Store :=
  { ingredients := [⟨1, "flour", "g"⟩]
    recipes := []
    recipe_tags := []
    lines := []
    favorites := []
    shopping_cart := []
    subscriptions := [] }

/-- A payload whose `amount` passes serializer validation (`min_value=1`,
no upper bound) but overflows the database `smallint` column. -/
def overflowInput : RecipeInput :=
  { author := 7, name := "cake", text := "mix", cooking_time := 10
    tags := [1], ingredients := [(1, 40000)] }

/-! ### Helper lemmas -/

theorem pairPresent_iff_pos (rel : List (Nat × Nat)) (u r : Nat) :
    pairPresent rel u r = true ↔ 0 < pairCount rel u r := by
  induction rel with
  | nil => simp [pairPresent, pairCount]
  | cons p rest ih =>
    by_cases h : p.1 = u ∧ p.2 = r
    · simp [pairPresent, pairCount, List.filter_cons, h]
    · simpa [pairPresent, pairCount, List.filter_cons, h] using ih

theorem pairCount_erasePair (rel : List (Nat × Nat)) (u r : Nat)
    (h : pairPresent rel u r = true) :
    pairCount (erasePair rel u r) u r + 1 = pairCount rel u r := by
  induction rel with
  | nil => simp [pairPresent] at h
  | cons p rest ih =>
    by_cases hp : p.1 = u ∧ p.2 = r
    · simp [erasePair, pairCount, List.filter_cons, hp]
    · have h' : pairPresent rest u r = true := by
        simpa [pairPresent, hp] using h
      simpa [erasePair, pairCount, List.filter_cons, hp] using ih h'

theorem pairCount_append_single (rel : List (Nat × Nat)) (u r : Nat) :
    pairCount (rel ++ [(u, r)]) u r = pairCount rel u r + 1 := by
  simp [pairCount, List.filter_append, List.filter_cons]

theorem pairPresent_append_single (rel : List (Nat × Nat)) (u r : Nat) :
    pairPresent (rel ++ [(u, r)]) u r = true := by
  simp [pairPresent]

/-! ### Claims about the membership toggles and subscriptions -/

/-- Claim C3: subscribing to oneself returns InvalidOperation and leaves
the store unchanged, whatever the prior contents of the subscription
table; the self check precedes the existence check, so the self case never
reports AlreadyExists. -/
theorem self_subscription_invalid (s : Store) (u : Nat) :
    subscription_add s u u = (s, SubResult.invalidOperation) := by
  simp [subscription_add]

/-- Claim C4: adding a favorite/cart row that is already present fails
with AlreadyExists and leaves the table unchanged; from an absent state
the first Add succeeds and the immediately following Add reports
AlreadyExists. -/
theorem relation_add_conflict (rel : List (Nat × Nat)) (u r : Nat) :
    (pairPresent rel u r = true →
      add_to_relation rel u r = (rel, RelResult.alreadyExists)) ∧
    (pairPresent rel u r = false →
      (add_to_relation rel u r).2 = RelResult.created ∧
      add_to_relation (add_to_relation rel u r).1 u r
        = ((add_to_relation rel u r).1, RelResult.alreadyExists)) := by
  constructor
  · intro h
    simp [add_to_relation, h]
  · intro h
    simp [add_to_relation, h, pairPresent_append_single]

/-- Claim C4 witness: a present pair is rejected with AlreadyExists, and
Add twice from the empty table creates then conflicts. -/
theorem relation_add_conflict_witness :
    (add_to_relation [(1, 2)] 1 2 = ([(1, 2)], RelResult.alreadyExists)) ∧
    ((add_to_relation ([] : List (Nat × Nat)) 1 2).2 = RelResult.created ∧
      add_to_relation (add_to_relation ([] : List (Nat × Nat)) 1 2).1 1 2
        = ((add_to_relation ([] : List (Nat × Nat)) 1 2).1,
            RelResult.alreadyExists)) :=
  ⟨(relation_add_conflict [(1, 2)] 1 2).1 (by decide),
    (relation_add_conflict [] 1 2).2 (by decide)⟩

/-- Claim C5: removing an absent favorite/cart pair fails with NotFound
and leaves the table unchanged; removing a present pair (under the
`unique_together` invariant of at most one row per pair) succeeds and
leaves the pair absent. -/
theorem relation_remove_transitions (rel : List (Nat × Nat)) (u r : Nat) :
    (pairPresent rel u r = false →
      remove_from_relation rel u r = (rel, RelResult.notFound)) ∧
    (pairPresent rel u r = true → pairCount rel u r ≤ 1 →
      (remove_from_relation rel u r).2 = RelResult.removed ∧
      pairPresent (remove_from_relation rel u r).1 u r = false) := by
  constructor
  · intro h
    simp [remove_from_relation, h]
  · intro h hinv
    have hcount := pairCount_erasePair rel u r h
    have hpos := (pairPresent_iff_pos rel u r).mp h
    have hz : pairCount (erasePair rel u r) u r = 0 := by omega
    refine ⟨by simp [remove_from_relation, h], ?_⟩
    simp only [remove_from_relation, h, if_true]
    by_contra hb
    have : pairPresent (erasePair rel u r) u r = true := by
      revert hb
      cases pairPresent (erasePair rel u r) u r <;> simp
    have := (pairPresent_iff_pos _ u r).mp this
    omega

/-- Claim C5 witness: NotFound on the empty table; Remove of a present
pair leaves it absent. -/
theorem relation_remove_transitions_witness :
    (remove_from_relation ([] : List (Nat × Nat)) 1 2
      = ([], RelResult.notFound)) ∧
    ((remove_from_relation [(1, 2)] 1 2).2 = RelResult.removed ∧
      pairPresent (remove_from_relation [(1, 2)] 1 2).1 1 2 = false) :=
  ⟨(relation_remove_transitions [] 1 2).1 (by decide),
    (relation_remove_transitions [(1, 2)] 1 2).2 (by decide) (by decide)⟩

/-- Claim C8: Add; Remove; Add on a favorite pair ends PRESENT with
exactly one row for that pair, from any prior table satisfying the
uniqueness invariant (at most one row per pair). -/
theorem add_remove_add_present_once (rel : List (Nat × Nat)) (u r : Nat)
    (hinv : pairCount rel u r ≤ 1) :
    pairPresent (addRemoveAdd rel u r) u r = true ∧
    pairCount (addRemoveAdd rel u r) u r = 1 := by
  by_cases h : pairPresent rel u r = true
  · have h1 : (add_to_relation rel u r).1 = rel := by
      simp [add_to_relation, h]
    have hcount := pairCount_erasePair rel u r h
    have hpos := (pairPresent_iff_pos rel u r).mp h
    have hz : pairCount (erasePair rel u r) u r = 0 := by omega
    have h2 : (remove_from_relation rel u r).1 = erasePair rel u r := by
      simp [remove_from_relation, h]
    have h3 : pairPresent (erasePair rel u r) u r = false := by
      by_contra hb
      have : pairPresent (erasePair rel u r) u r = true := by
        revert hb
        cases pairPresent (erasePair rel u r) u r <;> simp
      have := (pairPresent_iff_pos _ u r).mp this
      omega
    unfold addRemoveAdd
    rw [h1, h2]
    simp [add_to_relation, h3, pairPresent_append_single,
      pairCount_append_single, hz]
  · have hfalse : pairPresent rel u r = false := by
      revert h
      cases pairPresent rel u r <;> simp
    have hz : pairCount rel u r = 0 := by
      by_contra hb
      have : pairPresent rel u r = true :=
        (pairPresent_iff_pos rel u r).mpr (by omega)
      rw [this] at hfalse
      exact Bool.true_eq_false.mp hfalse
    have h1 : (add_to_relation rel u r).1 = rel ++ [(u, r)] := by
      simp [add_to_relation, hfalse]
    have hp1 : pairPresent (rel ++ [(u, r)]) u r = true :=
      pairPresent_append_single rel u r
    have hc1 : pairCount (rel ++ [(u, r)]) u r = 1 := by
      rw [pairCount_append_single, hz]
    have hcount := pairCount_erasePair (rel ++ [(u, r)]) u r hp1
    have hz2 : pairCount (erasePair (rel ++ [(u, r)]) u r) u r = 0 := by omega
    have h2 : (remove_from_relation (rel ++ [(u, r)]) u r).1
        = erasePair (rel ++ [(u, r)]) u r := by
      simp [remove_from_relation, hp1]
    have h3 : pairPresent (erasePair (rel ++ [(u, r)]) u r) u r = false := by
      by_contra hb
      have : pairPresent (erasePair (rel ++ [(u, r)]) u r) u r = true := by
        revert hb
        cases pairPresent (erasePair (rel ++ [(u, r)]) u r) u r <;> simp
      have := (pairPresent_iff_pos _ u r).mp this
      omega
    unfold addRemoveAdd
    rw [h1, h2]
    simp [add_to_relation, h3, pairPresent_append_single,
      pairCount_append_single, hz2]

/-- Claim C8 witness: starting from a table where the pair is present. -/
theorem add_remove_add_present_once_witness :
    pairPresent (addRemoveAdd [(1, 2)] 1 2) 1 2 = true ∧
    pairCount (addRemoveAdd [(1, 2)] 1 2) 1 2 = 1 :=
  add_remove_add_present_once [(1, 2)] 1 2 (by decide)

/-! ### Claims about recipe creation and update -/

/-- Claim C7: creating a recipe with an empty ingredient list is rejected
by `CreateRecipeSerializer.validate` with a ValidationError, and the store
is left exactly as it was (no orphan Recipe row, tag link or line). -/
theorem create_empty_ingredients_rejected (s : Store) (inp : RecipeInput)
    (h : inp.ingredients = []) :
    createRecipe s inp = (s, WriteResult.validationError) := by
  simp [createRecipe, validateRecipePayload, h]

/-- Claim C7 witness: the empty-ingredient payload is rejected and
persists nothing. -/
theorem create_empty_ingredients_rejected_witness :
    createRecipe exampleStore
        { author := 7, name := "cake", text := "mix", cooking_time := 10
          tags := [1], ingredients := [] }
      = (exampleStore, WriteResult.validationError) :=
  create_empty_ingredients_rejected exampleStore
    { author := 7, name := "cake", text := "mix", cooking_time := 10
      tags := [1], ingredients := [] } rfl

/-- Claim C10: an update request (partial or not) whose body omits the
`ingredients` key or the `tags` key is rejected by
`CreateRecipeSerializer.validate` with a ValidationError before any
write. -/
theorem update_requires_ingredients_and_tags (s : Store) (rid : Nat)
    (inp : UpdateInput)
    (h : inp.ingredients = none ∨ inp.tags = none) :
    updateRecipe s rid inp = (s, WriteResult.validationError) := by
  have hv : validateUpdateInput s inp = false := by
    rcases h with h | h
    · simp [validateUpdateInput, h]
    · simp [validateUpdateInput, h]
  simp [updateRecipe, hv]

/-- Claim C10 witness: a partial update that only changes the name is
rejected with a ValidationError and writes nothing. -/
theorem update_requires_ingredients_and_tags_witness :
    updateRecipe exampleStore 1
        { name := some "new", text := none, cooking_time := none
          tags := none, ingredients := none }
      = (exampleStore, WriteResult.validationError) :=
  update_requires_ingredients_and_tags exampleStore 1
    { name := some "new", text := none, cooking_time := none
      tags := none, ingredients := none } (Or.inl rfl)

/-- Claim C2 counterexample: on the code path the router actually
dispatches to (`CreateRecipeSerializer.create`, which has no transaction
wrapper), a payload that passes validation but whose amount overflows the
database `smallint` column fails at the `bulk_create` step and leaves a
partial write observable: the Recipe row and its tag links exist while the
ingredient lines do not. -/
theorem create_recipe_partial_write_counterexample :
    ((fieldValidation exampleStore overflowInput.ingredients
        overflowInput.cooking_time &&
      validateRecipePayload overflowInput.ingredients overflowInput.tags)
      = true) ∧
    (createRecipe exampleStore overflowInput).2 = WriteResult.dbError ∧
    (createRecipe exampleStore overflowInput).1.recipes ≠
      exampleStore.recipes ∧
    (createRecipe exampleStore overflowInput).1.recipe_tags ≠
      exampleStore.recipe_tags ∧
    (createRecipe exampleStore overflowInput).1.lines = [] := by
  decide

/-- Claim C2 (amended): the transaction-wrapped create
(`foodgram/api/views.py` `RecipeViewSet.create`) is atomic — a validation
or database failure leaves the store unchanged, and success persists the
Recipe row, its tag links and its ingredient lines together. -/
theorem create_recipe_tx_atomic (s : Store) (inp : RecipeInput) :
    (((createRecipeTx s inp).2 = WriteResult.validationError ∨
        (createRecipeTx s inp).2 = WriteResult.dbError) →
      (createRecipeTx s inp).1 = s) ∧
    (∀ rid, (createRecipeTx s inp).2 = WriteResult.created rid →
      (createRecipeTx s inp).1.recipes
        = s.recipes ++ [⟨rid, inp.author, inp.name, inp.text, inp.cooking_time⟩] ∧
      (createRecipeTx s inp).1.lines = s.lines ++ mkLines rid inp.ingredients ∧
      (createRecipeTx s inp).1.recipe_tags
        = s.recipe_tags.filter (fun p => decide (p.1 ≠ rid))
            ++ inp.tags.map (fun t => (rid, t))) := by
  by_cases hval : (fieldValidation s inp.ingredients inp.cooking_time &&
      validateRecipePayload inp.ingredients inp.tags) = true
  · simp only [createRecipeTx, hval, if_true]
    split
    next s3 hbc =>
      have h3 : s3 = { setTags { s with recipes := s.recipes ++
            [⟨freshRecipeId s, inp.author, inp.name, inp.text, inp.cooking_time⟩] }
            (freshRecipeId s) inp.tags with
          lines := s.lines ++ mkLines (freshRecipeId s) inp.ingredients } := by
        unfold bulk_create at hbc
        split at hbc
        · simpa [setTags] using hbc.symm
        · exact absurd hbc (by simp)
      constructor
      · rintro (h | h) <;> simp at h
      · intro rid hr
        have hrid : freshRecipeId s = rid := by
          simpa using hr
        subst hrid
        subst h3
        simp [setTags]
    next hbc =>
      constructor
      · intro _
        rfl
      · intro rid hr
        simp at hr
  · simp [createRecipeTx, hval]

/-- Claim C2 amended-claim witness: the overflowing payload that leaves a
partial write on the untransacted path leaves the store untouched on the
transaction-wrapped path. -/
theorem create_recipe_tx_atomic_witness :
    (createRecipeTx exampleStore overflowInput).1 = exampleStore :=
  (create_recipe_tx_atomic exampleStore overflowInput).1 (Or.inr (by decide))
theorem filter_recipe_of_ne (ls : List IngredientsInRecipe) (rid : Nat) :
    ((ls.filter (fun l => decide (l.recipe ≠ rid))).filter
      (fun l => decide (l.recipe = rid))) = [] := by
  induction ls with
  | nil => rfl
  | cons l ls ih =>
    by_cases h : l.recipe = rid <;> simp [List.filter_cons, h, ih]

theorem filter_mkLines (rid : Nat) (L : List (Nat × Nat)) :
    (mkLines rid L).filter (fun l => decide (l.recipe = rid)) = mkLines rid L := by
  simp [mkLines, List.filter_map, Function.comp_def]

theorem mkLines_map_ingredient (rid : Nat) (L : List (Nat × Nat)) :
    (mkLines rid L).map (·.ingredient) = L.map (·.1) := by
  simp [mkLines, List.map_map, Function.comp_def]

/-- A store with one recipe (one tag link, one ingredient line) for the
update witness. -/
def updateStore : Store :=
  { ingredients := [⟨1, "flour", "g"⟩, ⟨2, "sugar", "g"⟩]
    recipes := [⟨1, 7, "A", "t", 10⟩]
    recipe_tags := [(1, 1)]
    lines := [⟨1, 1, 3⟩]
    favorites := []
    shopping_cart := []
    subscriptions := [] }

/-- An update payload replacing the single flour line by a sugar line. -/
def updatePayload : UpdateInput :=
  { name := none, text := none, cooking_time := none
    tags := some [1], ingredients := some [(2, 5)] }

/-- Claim C6: after a successful update that supplies the ingredient-line
set `L`, the stored lines of the recipe are exactly the rows built from
`L` — every prior line is gone and no ingredient appears twice. -/
theorem update_replaces_ingredient_lines (s : Store) (rid : Nat)
    (inp : UpdateInput) (L : List (Nat × Nat))
    (hL : inp.ingredients = some L)
    (hok : (updateRecipe s rid inp).2 = WriteResult.ok) :
    ((updateRecipe s rid inp).1.lines.filter (fun l => decide (l.recipe = rid)))
      = mkLines rid L ∧
    (((updateRecipe s rid inp).1.lines.filter
        (fun l => decide (l.recipe = rid))).map (·.ingredient)).Nodup := by
  cases hv : validateUpdateInput s inp with
  | false => simp [updateRecipe, hv] at hok
  | true =>
    cases htag : inp.tags with
    | none => simp [validateUpdateInput, htag] at hv
    | some ts =>
      have hnd : (L.map (·.1)).Nodup := by
        simp only [validateUpdateInput, hL, htag, Bool.and_eq_true,
          decide_eq_true_eq] at hv
        exact hv.1.2.2
      simp only [updateRecipe, hv, if_true, hL, htag] at hok ⊢
      split at hok
      next s4 hbc =>
        have hlines : s4.lines
            = s.lines.filter (fun l => decide (l.recipe ≠ rid))
              ++ mkLines rid L := by
          unfold bulk_create at hbc
          split at hbc
          · rw [← Option.some_inj.mp hbc]
            simp [setTags]
          · exact absurd hbc (by simp)
        constructor
        · show (s4.lines.filter (fun l => decide (l.recipe = rid)))
            = mkLines rid L
          rw [hlines, List.filter_append, filter_recipe_of_ne,
            filter_mkLines, List.nil_append]
        · show ((s4.lines.filter
              (fun l => decide (l.recipe = rid))).map (·.ingredient)).Nodup
          rw [hlines, List.filter_append, filter_recipe_of_ne,
            filter_mkLines, List.nil_append, mkLines_map_ingredient]
          exact hnd
      next hbc =>
        simp at hok

/-- Claim C6 witness: updating the recipe's single flour line to a sugar
line leaves exactly the sugar line stored. -/
theorem update_replaces_ingredient_lines_witness :
    ((updateRecipe updateStore 1 updatePayload).1.lines.filter
        (fun l => decide (l.recipe = 1))) = mkLines 1 [(2, 5)] ∧
    (((updateRecipe updateStore 1 updatePayload).1.lines.filter
        (fun l => decide (l.recipe = 1))).map (·.ingredient)).Nodup :=
  update_replaces_ingredient_lines updateStore 1 updatePayload [(2, 5)]
    rfl (by decide)

/-! ### Group-by lemmas for the shopping-cart aggregation -/

theorem sumFor_addToGroups (g : List ((String × String) × Nat))
    (k k' : String × String) (a : Nat) :
    sumFor (addToGroups g k a) k'
      = sumFor g k' + (if k = k' then a else 0) := by
  induction g with
  | nil =>
    by_cases h : k = k' <;> simp [addToGroups, sumFor, h]
  | cons p g ih =>
    obtain ⟨k0, t0⟩ := p
    by_cases h : k0 = k
    · subst h
      by_cases h' : k0 = k' <;> simp [addToGroups, sumFor, h']
      all_goals omega
    · simp only [addToGroups, if_neg h, sumFor]
      rw [ih]
      omega

theorem mem_keys_addToGroups (g : List ((String × String) × Nat))
    (k k' : String × String) (a : Nat) :
    k' ∈ (addToGroups g k a).map (·.1) ↔ k' ∈ g.map (·.1) ∨ k' = k := by
  induction g with
  | nil => simp [addToGroups]
  | cons p g ih =>
    obtain ⟨k0, t0⟩ := p
    by_cases h : k0 = k
    · subst h
      simp [addToGroups]
      tauto
    · simp [addToGroups, h, ih]
      tauto

theorem nodup_keys_addToGroups (g : List ((String × String) × Nat))
    (k : String × String) (a : Nat) (h : (g.map (·.1)).Nodup) :
    ((addToGroups g k a).map (·.1)).Nodup := by
  induction g with
  | nil => simp [addToGroups]
  | cons p g ih =>
    obtain ⟨k0, t0⟩ := p
    simp only [List.map_cons, List.nodup_cons] at h
    by_cases hk : k0 = k
    · subst hk
      simpa [addToGroups, List.nodup_cons] using h
    · simp only [addToGroups, if_neg hk, List.map_cons, List.nodup_cons]
      refine ⟨?_, ih h.2⟩
      intro hmem
      rcases (mem_keys_addToGroups g k k0 a).mp hmem with h' | h'
      · exact h.1 h'
      · exact hk h'

theorem sumFor_foldl (ps : List ((String × String) × Nat)) :
    ∀ (acc : List ((String × String) × Nat)) (k : String × String),
      sumFor (ps.foldl (fun g p => addToGroups g p.1 p.2) acc) k
        = sumFor acc k + sumFor ps k := by
  induction ps with
  | nil =>
    intro acc k
    simp [sumFor]
  | cons p ps ih =>
    intro acc k
    obtain ⟨k0, a0⟩ := p
    simp only [List.foldl_cons]
    rw [ih, sumFor_addToGroups]
    simp only [sumFor]
    omega

theorem mem_keys_foldl (ps : List ((String × String) × Nat)) :
    ∀ (acc : List ((String × String) × Nat)) (k : String × String),
      k ∈ ((ps.foldl (fun g p => addToGroups g p.1 p.2) acc).map (·.1))
        ↔ k ∈ acc.map (·.1) ∨ k ∈ ps.map (·.1) := by
  induction ps with
  | nil =>
    intro acc k
    simp
  | cons p ps ih =>
    intro acc k
    obtain ⟨k0, a0⟩ := p
    simp only [List.foldl_cons, List.map_cons, List.mem_cons]
    rw [ih, mem_keys_addToGroups]
    tauto

theorem nodup_keys_foldl (ps : List ((String × String) × Nat)) :
    ∀ acc : List ((String × String) × Nat), (acc.map (·.1)).Nodup →
      ((ps.foldl (fun g p => addToGroups g p.1 p.2) acc).map (·.1)).Nodup := by
  induction ps with
  | nil =>
    intro acc h
    simpa using h
  | cons p ps ih =>
    intro acc h
    simp only [List.foldl_cons]
    exact ih _ (nodup_keys_addToGroups _ _ _ h)

theorem sumFor_eq_zero (g : List ((String × String) × Nat))
    (k : String × String) (h : k ∉ g.map (·.1)) : sumFor g k = 0 := by
  induction g with
  | nil => rfl
  | cons p g ih =>
    obtain ⟨k0, t0⟩ := p
    simp only [List.map_cons, List.mem_cons] at h
    push_neg at h
    simp [sumFor, (Ne.symm h.1 : k0 ≠ k), ih h.2]

theorem entry_eq_sumFor (g : List ((String × String) × Nat))
    (hg : (g.map (·.1)).Nodup) (k : String × String) (t : Nat)
    (hmem : (k, t) ∈ g) : t = sumFor g k := by
  induction g with
  | nil => simp at hmem
  | cons p g ih =>
    obtain ⟨k0, t0⟩ := p
    simp only [List.map_cons, List.nodup_cons] at hg
    rcases List.mem_cons.mp hmem with heq | hmem'
    · injection heq with h1 h2
      subst h1
      subst h2
      simp [sumFor, sumFor_eq_zero g k hg.1]
    · have hk0 : ¬ (k0 = k) := by
        intro hc
        subst hc
        exact hg.1 (List.mem_map.mpr ⟨(k0, t), hmem', rfl⟩)
      simp only [sumFor, if_neg hk0, Nat.zero_add]
      exact ih hg.2 hmem'

theorem mem_keys_keyedRows (s : Store) (u : Nat) (k : String × String) :
    k ∈ (keyedRows s u).map (·.1) ↔
      ∃ l ∈ cartLines s u, lineKey s l = some k := by
  simp only [keyedRows, List.mem_map, List.mem_filterMap, Option.map_eq_some']
  constructor
  · rintro ⟨row, ⟨l, hl, key, hkey, hrow⟩, hfst⟩
    refine ⟨l, hl, ?_⟩
    rw [hkey]
    rw [← hrow] at hfst
    simp at hfst
    rw [hfst]
  · rintro ⟨l, hl, hkey⟩
    exact ⟨(k, l.amount), ⟨l, hl, k, hkey, rfl⟩, rfl⟩

theorem sumFor_filterMap_lines (s : Store) (k : String × String) :
    ∀ ls : List IngredientsInRecipe,
      sumFor (ls.filterMap (fun l => (lineKey s l).map (fun k' => (k', l.amount)))) k
        = ((ls.filter (fun l => decide (lineKey s l = some k))).map (·.amount)).sum := by
  intro ls
  induction ls with
  | nil => rfl
  | cons l ls ih =>
    cases hk : lineKey s l with
    | none =>
      simp only [List.filterMap_cons, hk, Option.map_none', List.filter_cons]
      simpa [hk] using ih
    | some k0 =>
      simp only [List.filterMap_cons, hk, Option.map_some', List.filter_cons]
      by_cases hkk : k0 = k
      · subst hkk
        simp [sumFor, hk, ih]
      · simp [sumFor, hk, hkk, ih]

/-- A catalog with two ingredients named "flour" in different units, two
recipes in user 9's cart, and flour/g lines in both recipes. -/
def aggStore : Store :=
  { ingredients := [⟨1, "flour", "g"⟩, ⟨2, "sugar", "g"⟩, ⟨3, "flour", "kg"⟩]
    recipes := [⟨1, 7, "A", "t", 10⟩, ⟨2, 7, "B", "t", 20⟩]
    recipe_tags := []
    lines := [⟨1, 1, 200⟩, ⟨1, 2, 100⟩, ⟨2, 1, 50⟩, ⟨2, 3, 5⟩]
    favorites := []
    shopping_cart := [(9, 1), (9, 2)]
    subscriptions := [] }

/-- Claim C1: `download_shopping_cart` emits exactly one row per distinct
(name, measurement unit) pair occurring in the user's cart lines, each
row's total being the sum of `amount` over every such line; because the
ingredient table is unique on (name, measurement_unit) and on its primary
key, a line's key is exactly its referenced ingredient's pair, and two
lines share a key only when they reference the same ingredient — so
ingredients with equal names but different units are never merged. -/
theorem shopping_cart_aggregation (s : Store) (u : Nat)
    (hid : (s.ingredients.map (·.id)).Nodup)
    (hnu : (s.ingredients.map (fun i => (i.name, i.measurement_unit))).Nodup) :
    ((download_shopping_cart s u).map (·.1)).Nodup ∧
    (∀ k : String × String,
      k ∈ (download_shopping_cart s u).map (·.1) ↔
        ∃ l ∈ cartLines s u, lineKey s l = some k) ∧
    (∀ (k : String × String) (t : Nat),
      (k, t) ∈ download_shopping_cart s u → t = pairTotal s u k) ∧
    (∀ l i, l ∈ cartLines s u → i ∈ s.ingredients → i.id = l.ingredient →
      lineKey s l = some (i.name, i.measurement_unit)) ∧
    (∀ l1 l2 (k : String × String), l1 ∈ cartLines s u → l2 ∈ cartLines s u →
      lineKey s l1 = some k → lineKey s l2 = some k →
      l1.ingredient = l2.ingredient) := by
  refine ⟨?_, ?_, ?_, ?_, ?_⟩
  · exact nodup_keys_foldl _ _ (by simp)
  · intro k
    rw [download_shopping_cart, groupPairs, mem_keys_foldl,
      mem_keys_keyedRows]
    simp
  · intro k t hmem
    have h1 : t = sumFor (download_shopping_cart s u) k :=
      entry_eq_sumFor _ (nodup_keys_foldl _ _ (by simp)) k t hmem
    have h2 : sumFor (download_shopping_cart s u) k = pairTotal s u k := by
      rw [download_shopping_cart, groupPairs, sumFor_foldl]
      rw [show sumFor [] k = 0 from rfl, Nat.zero_add]
      rw [keyedRows, sumFor_filterMap_lines s k (cartLines s u)]
      rfl
    rw [h1, h2]
  · intro l i hl hi hidl
    cases hfind : s.ingredients.find? (fun i' => decide (i'.id = l.ingredient)) with
    | none =>
      exfalso
      have := List.find?_eq_none.mp hfind i hi
      simp [hidl] at this
    | some j =>
      have hj1 : j ∈ s.ingredients := List.mem_of_find?_eq_some hfind
      have hj2 : j.id = l.ingredient := by
        have := List.find?_some hfind
        simpa using this
      have hij : i = j :=
        List.inj_on_of_nodup_map hid hi hj1 (by rw [hidl, hj2])
      subst hij
      simp [lineKey, hfind]
  · intro l1 l2 k h1 h2 hk1 hk2
    simp only [lineKey] at hk1 hk2
    obtain ⟨j1, hj1f, hj1e⟩ := Option.map_eq_some'.mp hk1
    obtain ⟨j2, hj2f, hj2e⟩ := Option.map_eq_some'.mp hk2
    have hm1 : j1 ∈ s.ingredients := List.mem_of_find?_eq_some hj1f
    have hm2 : j2 ∈ s.ingredients := List.mem_of_find?_eq_some hj2f
    have hkey : (j1.name, j1.measurement_unit) = (j2.name, j2.measurement_unit) := by
      rw [hj1e, hj2e]
    have hj12 : j1 = j2 := List.inj_on_of_nodup_map hnu hm1 hm2 hkey
    have e1 : j1.id = l1.ingredient := by
      simpa using List.find?_some hj1f
    have e2 : j2.id = l2.ingredient := by
      simpa using List.find?_some hj2f
    rw [← e1, ← e2, hj12]

/-- Claim C1 witness: in `aggStore`, user 9's list contains a (flour, g)
row and its total is the sum 200 + 50 over the two flour/g lines, while
the (flour, kg) line stays separate. -/
theorem shopping_cart_aggregation_witness :
    (("flour", "g") ∈ (download_shopping_cart aggStore 9).map (·.1)) ∧
    250 = pairTotal aggStore 9 ("flour", "g") ∧
    5 = pairTotal aggStore 9 ("flour", "kg") := by
  have h := shopping_cart_aggregation aggStore 9 (by decide) (by decide)
  refine ⟨(h.2.1 ("flour", "g")).mpr (by decide), ?_, ?_⟩
  · exact h.2.2.1 ("flour", "g") 250 (by decide)
  · exact h.2.2.1 ("flour", "kg") 5 (by decide)

/-- Claim C9: a user with no cart rows gets an empty shopping list, not an
error. -/
theorem empty_cart_empty_list (s : Store) (u : Nat)
    (h : ∀ r, (u, r) ∉ s.shopping_cart) :
    download_shopping_cart s u = [] := by
  have h0 : s.recipes.filter
      (fun r => s.shopping_cart.any (fun p => decide (p.1 = u ∧ p.2 = r.id))) = [] := by
    rw [List.filter_eq_nil_iff]
    intro rec _ hcon
    obtain ⟨⟨a, b⟩, hp, hab⟩ := List.any_eq_true.mp hcon
    simp only [decide_eq_true_eq] at hab
    obtain ⟨ha, hb⟩ := hab
    subst ha
    subst hb
    exact h rec.id hp
  have h1 : cartRecipeIds s u = [] := by
    rw [cartRecipeIds, h0]
    rfl
  have h2 : cartLines s u = [] := by
    rw [cartLines, h1]
    simp
  rw [download_shopping_cart, keyedRows, h2]
  rfl

/-- Claim C9 witness: user 5 has no cart rows in `aggStore` (whose cart is
non-empty for user 9), and their list is empty. -/
theorem empty_cart_empty_list_witness :
    download_shopping_cart aggStore 5 = [] :=
  empty_cart_empty_list aggStore 5 (by intro r hr; simp [aggStore] at hr)
